import Mathlib

/-!
Shallow embedding of `src/main.py` (python-multilevel-cache): a tiered
key-value cache with pluggable storage and eviction policy.

Modelling conventions:
* Python exceptions become an explicit error type threaded through every
  operation; each stateful method returns `(Except Err α) × State`, so a
  failing call still reports the (possibly partially mutated) state, exactly
  as a raised Python exception leaves the mutated objects behind.
* Python `dict` is an association list with unique keys (`dictGet`,
  `dictPut`, `dictRemove`); `del` removes the unique entry for the key.
* The hand-rolled doubly-linked `Node` objects of the recency list live in
  an arena (`LL.nodes`); Python object identity is the arena index, and the
  `prev`/`next` object references are `Option Nat` indices.
* `time.time()` is modelled by a monotone counter threaded through the
  level operations: each call returns the current tick and advances it.
* `Cache.put` and `LL.make_node_head` recurse in Python.  Each recursive
  call happens right after the state was changed so that the recursive call
  cannot recurse again (a successful `remove` strictly shrinks the dict, so
  the retried `storage.put` cannot be full again; a promoted node is
  detached before the recursive call, so the recursion takes the
  non-recursive detached branch).  They are therefore defined with a fuel
  of 2, and the out-of-fuel result (`Err.fuelExhausted`) is unreachable.
-/

deriving instance DecidableEq for Except

namespace MLCache

/-- Keys are opaque hashable identities; strings suffice for the embedding. -/
abbrev Key := String

/-- Distinguishes `ReadResponse` from `WriteResponse`. -/
inductive RespKind where
  | read
  | write
deriving DecidableEq

/-- Python values stored and returned by the cache.  `resp` embeds the
`Response` wrapper objects, because `CacheLevel.get` stores a whole
`ReadResponse` object back into the front cache on the miss path, so
responses do flow into storage.  `pynone` is Python `None`. -/
inductive Val where
  | str (s : String)
  | int (n : Int)
  | pynone
  | resp (kind : RespKind) (value : Val) (timeTook : Nat)
deriving DecidableEq

/-- The Python exceptions that can escape the code under `src/main.py`:
`StorageFullException`, `KeyError` (the not-found signal), and
`AttributeError` (dereferencing `None`).  `fuelExhausted` is the
out-of-fuel marker for the two bounded recursions; it is unreachable. -/
inductive Err where
  | storageFull
  | keyError
  | attrError
  | fuelExhausted
deriving DecidableEq

/-- Python `dict` lookup (`db[key]` read side, `key in db`). -/
def dictGet {α : Type} : List (Key × α) → Key → Option α
  | [], _ => none
  | (k', v) :: rest, k => if k' = k then some v else dictGet rest k

/-- Python `db[key] = value`: overwrite the unique existing entry in
place (a Python dict keeps the key's insertion position), else append the
new entry at the end. -/
def dictPut {α : Type} : List (Key × α) → Key → α → List (Key × α)
  | [], k, v => [(k, v)]
  | (k', w) :: rest, k, v =>
    if k' = k then (k, v) :: rest else (k', w) :: dictPut rest k v

/-- Python `del db[key]`: drop the unique entry holding `key`. -/
def dictRemove {α : Type} (db : List (Key × α)) (k : Key) : List (Key × α) :=
  db.filter (fun p => decide (p.1 ≠ k))

/-- Source class `HashMapBasedStorage`: a dict plus a capacity.  `capacity = none`
models the default `float('inf')` (never equal to an integer size). -/
structure HashMapBasedStorage where
  capacity : Option Nat
  db : List (Key × Val)
deriving DecidableEq

/-- Source method `HashMapBasedStorage.put`: `if len(self.db) == self.capacity: raise
StorageFullException`; otherwise `self.db[key] = value`.  Note the source
checks only the size, not whether `key` is already present. -/
def HashMapBasedStorage.put (s : HashMapBasedStorage) (k : Key) (v : Val) :
    (Except Err Unit) × HashMapBasedStorage :=
  if s.capacity = some s.db.length then
    (.error .storageFull, s)
  else
    (.ok (), { s with db := dictPut s.db k v })

/-- Source method `HashMapBasedStorage.get`: `return self.db[key]`, raising `KeyError`
when absent. -/
def HashMapBasedStorage.get (s : HashMapBasedStorage) (k : Key) :
    (Except Err Val) × HashMapBasedStorage :=
  match dictGet s.db k with
  | some v => (.ok v, s)
  | none => (.error .keyError, s)

/-- Source method `HashMapBasedStorage.remove`: `del self.db[key]`, raising `KeyError`
when absent. -/
def HashMapBasedStorage.remove (s : HashMapBasedStorage) (k : Key) :
    (Except Err Unit) × HashMapBasedStorage :=
  if (dictGet s.db k).isSome then
    (.ok (), { s with db := dictRemove s.db k })
  else
    (.error .keyError, s)

/-- One `Node` of the recency list: the key plus `prev`/`next` references,
given as arena indices. -/
structure Node where
  val : Key
  prev : Option Nat
  next : Option Nat
deriving DecidableEq

/-- The hand-rolled doubly-linked list `LL`: the node arena plus the
`head`/`tail` references. -/
structure LL where
  nodes : List Node
  head : Option Nat
  tail : Option Nat
deriving DecidableEq

/-- Dereference a node object (arena slot). -/
def LL.node (ll : LL) (i : Nat) : Option Node :=
  ll.nodes.get? i

/-- Mutate one node object in place. -/
def listModifyNode (ns : List Node) (i : Nat) (f : Node → Node) : List Node :=
  match ns.get? i with
  | some n => ns.set i (f n)
  | none => ns

/-- Assignment `node.prev = p` on the node at index `i`. -/
def LL.setPrev (ll : LL) (i : Nat) (p : Option Nat) : LL :=
  { ll with nodes := listModifyNode ll.nodes i (fun n => { n with prev := p }) }

/-- Assignment `node.next = p` on the node at index `i`. -/
def LL.setNext (ll : LL) (i : Nat) (p : Option Nat) : LL :=
  { ll with nodes := listModifyNode ll.nodes i (fun n => { n with next := p }) }

/-- Source method `LL.make_node_head`, fuelled.  The Python recursion always happens on a
node that was just detached (`prev == next == None`), which then takes the
non-recursive third branch, so recursion depth is at most 1 and fuel 2 is
always sufficient.  Mirrors the source line by line, including the
self-link written by the empty-list branch (`self.head.next = self.tail;
self.tail.prev = self.head` where head, tail and node are one object). -/
def LL.makeNodeHeadAux : Nat → LL → Nat → (Except Err Unit) × LL
  | 0, ll, _ => (.error .fuelExhausted, ll)
  | fuel + 1, ll, i =>
    if ll.head = some i then
      (.ok (), ll)
    else
      match ll.node i with
      | none => (.error .attrError, ll)
      | some nd =>
        match ll.head with
        | none =>
          let ll1 := { ll with head := some i, tail := some i }
          let ll2 := ll1.setNext i (some i)
          let ll3 := ll2.setPrev i (some i)
          (.ok (), ll3)
        | some hd =>
          match nd.prev, nd.next with
          | none, none =>
            let ll1 := ll.setNext i (some hd)
            let ll2 := ll1.setPrev hd (some i)
            (.ok (), { ll2 with head := some i })
          | some p, none =>
            let ll1 := ll.setNext p none
            let ll2 := { ll1 with tail := some p }
            let ll3 := ll2.setPrev i none
            let ll4 := ll3.setNext i none
            LL.makeNodeHeadAux fuel ll4 i
          | none, some _ =>
            (.error .attrError, ll)
          | some p, some nx =>
            let ll1 := ll.setNext p (some nx)
            let ll2 := ll1.setPrev nx (some p)
            let ll3 := ll2.setPrev i none
            let ll4 := ll3.setNext i none
            LL.makeNodeHeadAux fuel ll4 i

/-- Source method `LL.make_node_head(node)` with the always-sufficient fuel. -/
def LL.makeNodeHead (ll : LL) (i : Nat) : (Except Err Unit) × LL :=
  LL.makeNodeHeadAux 2 ll i

/-- Source method `LL.key_to_remove`: take from the tail; when `head == tail` (which
includes the empty list, both `None`) clear the list and return that
reference, which may be `None`. -/
def LL.keyToRemove (ll : LL) : (Except Err (Option Nat)) × LL :=
  if ll.head = ll.tail then
    (.ok ll.head, { ll with head := none, tail := none })
  else
    match ll.tail with
    | none => (.error .attrError, ll)
    | some t =>
      match ll.node t with
      | none => (.error .attrError, ll)
      | some nd =>
        match nd.prev with
        | none => (.error .attrError, ll)
        | some p =>
          let ll1 := ll.setNext p none
          (.ok (some t), { ll1 with tail := some p })

/-- Source class `LRUKeyAccessPolicy`: a key → node-object index plus the recency list. -/
structure LRUKeyAccessPolicy where
  hashmap : List (Key × Nat)
  ll : LL
deriving DecidableEq

/-- Source method `LRUKeyAccessPolicy.key_accessed`: promote the known node, else
allocate a fresh `Node(key)` (a new arena slot), index it, and promote. -/
def LRUKeyAccessPolicy.keyAccessed (pol : LRUKeyAccessPolicy) (k : Key) :
    (Except Err Unit) × LRUKeyAccessPolicy :=
  match dictGet pol.hashmap k with
  | some i =>
    match pol.ll.makeNodeHead i with
    | (r, ll') => (r, { pol with ll := ll' })
  | none =>
    let i := pol.ll.nodes.length
    let hm := dictPut pol.hashmap k i
    let ll0 := { pol.ll with
      nodes := pol.ll.nodes ++ [({ val := k, prev := none, next := none } : Node)] }
    match ll0.makeNodeHead i with
    | (r, ll') => (r, ({ hashmap := hm, ll := ll' } : LRUKeyAccessPolicy))

/-- Source method `LRUKeyAccessPolicy.key_to_remove`: pop the list tail, then
`del self.hashmap[tail.val]` and return `tail.val`.  When the list is
empty the pop returns `None` and `None.val` raises an attribute error. -/
def LRUKeyAccessPolicy.keyToRemove (pol : LRUKeyAccessPolicy) :
    (Except Err Key) × LRUKeyAccessPolicy :=
  match pol.ll.keyToRemove with
  | (.error e, ll') => (.error e, { pol with ll := ll' })
  | (.ok none, ll') => (.error .attrError, { pol with ll := ll' })
  | (.ok (some t), ll') =>
    match ll'.node t with
    | none => (.error .attrError, { pol with ll := ll' })
    | some nd =>
      match dictGet pol.hashmap nd.val with
      | none => (.error .keyError, { pol with ll := ll' })
      | some _ =>
        (.ok nd.val, ({ hashmap := dictRemove pol.hashmap nd.val, ll := ll' } : LRUKeyAccessPolicy))

/-- Source class `Cache`: one storage plus one eviction policy. -/
structure Cache where
  storage : HashMapBasedStorage
  key_access_policy : LRUKeyAccessPolicy
deriving DecidableEq

/-- Source method `Cache.put`, fuelled.  The Python method retries itself after an
evict; the retried `storage.put` cannot be full again (the successful
`remove` strictly shrank the dict below the fixed capacity), so the
recursion depth is at most 1 and fuel 2 is always sufficient.  The
`except StorageFullException` clause catches only that exception; every
other error propagates.  Note the source reports `key_accessed` a second
time after the retry returns. -/
def Cache.putAux : Nat → Cache → Key → Val → (Except Err Unit) × Cache
  | 0, c, _, _ => (.error .fuelExhausted, c)
  | fuel + 1, c, k, v =>
    match c.storage.put k v with
    | (.ok _, st') =>
      let c1 := { c with storage := st' }
      match c1.key_access_policy.keyAccessed k with
      | (.ok _, pol') => (.ok (), { c1 with key_access_policy := pol' })
      | (.error e, pol') => (.error e, { c1 with key_access_policy := pol' })
    | (.error .storageFull, st') =>
      let c1 := { c with storage := st' }
      match c1.key_access_policy.keyToRemove with
      | (.error e, pol') => (.error e, { c1 with key_access_policy := pol' })
      | (.ok victim, pol') =>
        let c2 := { c1 with key_access_policy := pol' }
        match c2.storage.remove victim with
        | (.error e, st2) => (.error e, { c2 with storage := st2 })
        | (.ok _, st2) =>
          let c3 := { c2 with storage := st2 }
          match Cache.putAux fuel c3 k v with
          | (.error e, c4) => (.error e, c4)
          | (.ok _, c4) =>
            match c4.key_access_policy.keyAccessed k with
            | (.ok _, pol2) => (.ok (), { c4 with key_access_policy := pol2 })
            | (.error e, pol2) => (.error e, { c4 with key_access_policy := pol2 })
    | (.error e, st') => (.error e, { c with storage := st' })

/-- Source method `Cache.put(key, value)` with the always-sufficient fuel. -/
def Cache.put (c : Cache) (k : Key) (v : Val) : (Except Err Unit) × Cache :=
  Cache.putAux 2 c k v

/-- Source method `Cache.get(key)`: delegate to `Storage.get`; no recency update. -/
def Cache.get (c : Cache) (k : Key) : (Except Err Val) × Cache :=
  match c.storage.get k with
  | (.ok v, st') => (.ok v, { c with storage := st' })
  | (.error e, st') => (.error e, { c with storage := st' })

/-- Source class `CacheLevel`: a diagnostic name plus the owned `Cache`.  The `next`
reference is represented by the position in the chain list: the chain
`front :: rest` stands for the front level whose `next` chain is `rest`,
and `next is None` is the empty rest. -/
structure CacheLevel where
  name : String
  cache_provider : Cache
deriving DecidableEq

/-- Source method `CacheLevel.get` along the chain, threading the clock.  A local hit
wraps the value in a `ReadResponse`.  On `KeyError`: the terminal level
re-raises it, and an intermediate level fetches from the rest of the
chain, writes the fetched object — which is the downstream `ReadResponse`
wrapper itself, not its `.value` — into the local cache, and wraps that
object again.  Every other error propagates. -/
def levelsGet : List CacheLevel → Key → Nat → (Except Err Val) × List CacheLevel × Nat
  | [], _, clk => (.error .attrError, [], clk)
  | lvl :: rest, k, clk =>
    let t1 := clk
    let clk1 := clk + 1
    match lvl.cache_provider.get k with
    | (.ok value, c') =>
      let t2 := clk1
      (.ok (.resp .read value (t2 - t1)), { lvl with cache_provider := c' } :: rest, clk1 + 1)
    | (.error .keyError, c') =>
      match rest with
      | [] => (.error .keyError, { lvl with cache_provider := c' } :: rest, clk1)
      | _ :: _ =>
        match levelsGet rest k clk1 with
        | (.error e, rest', clk2) =>
          (.error e, { lvl with cache_provider := c' } :: rest', clk2)
        | (.ok value, rest', clk2) =>
          match Cache.put c' k value with
          | (.error e, c2) => (.error e, { lvl with cache_provider := c2 } :: rest', clk2)
          | (.ok _, c2) =>
            let t2 := clk2
            (.ok (.resp .read value (t2 - t1)),
              { lvl with cache_provider := c2 } :: rest', clk2 + 1)
    | (.error e, c') => (.error e, { lvl with cache_provider := c' } :: rest, clk1)

/-- Source method `CacheLevel.put` along the chain: write to the local cache, then write
through to the rest of the chain, and return a `WriteResponse(None, ..)`
whose elapsed time spans the whole write-through. -/
def levelsPut : List CacheLevel → Key → Val → Nat → (Except Err Val) × List CacheLevel × Nat
  | [], _, _, clk => (.error .attrError, [], clk)
  | lvl :: rest, k, v, clk =>
    let t1 := clk
    let clk1 := clk + 1
    match Cache.put lvl.cache_provider k v with
    | (.error e, c') => (.error e, { lvl with cache_provider := c' } :: rest, clk1)
    | (.ok _, c') =>
      match rest with
      | [] =>
        let t2 := clk1
        (.ok (.resp .write .pynone (t2 - t1)),
          [{ lvl with cache_provider := c' }], clk1 + 1)
      | _ :: _ =>
        match levelsPut rest k v clk1 with
        | (.error e, rest', clk2) =>
          (.error e, { lvl with cache_provider := c' } :: rest', clk2)
        | (.ok _, rest', clk2) =>
          let t2 := clk2
          (.ok (.resp .write .pynone (t2 - t1)),
            { lvl with cache_provider := c' } :: rest', clk2 + 1)

/-- Source class `MultilevelCache`: the chain of levels (empty list models a `None`
front level), the two bounded history queues (most recent first), their
shared capacity `last_num_stat`, and the modelled clock. -/
structure MultilevelCache where
  levels : List CacheLevel
  get_queue : List Val
  put_queue : List Val
  maxlen : Nat
  clock : Nat
deriving DecidableEq

/-- Python `deque(maxlen=m).appendleft(x)`: push at the front, silently dropping
the oldest (rightmost) entry when the deque is at capacity. -/
def appendLeftMax (m : Nat) (x : Val) (q : List Val) : List Val :=
  (x :: q).take m

/-- Source method `MultilevelCache.add_cache_level`: append at the tail of the chain. -/
def MultilevelCache.addCacheLevel (m : MultilevelCache) (lvl : CacheLevel) : MultilevelCache :=
  { m with levels := m.levels ++ [lvl] }

/-- Source method `MultilevelCache.get`: delegate to the front level (`None.get` is an
attribute error when no level was ever added), append the `ReadResponse`
to the read-history queue, and return only `read_response.value`. -/
def MultilevelCache.get (m : MultilevelCache) (k : Key) :
    (Except Err Val) × MultilevelCache :=
  match m.levels with
  | [] => (.error .attrError, m)
  | _ :: _ =>
    match levelsGet m.levels k m.clock with
    | (.error e, lv', clk') => (.error e, { m with levels := lv', clock := clk' })
    | (.ok r, lv', clk') =>
      match r with
      | .resp kd value t =>
        (.ok value,
          { m with levels := lv', clock := clk',
                   get_queue := appendLeftMax m.maxlen (.resp kd value t) m.get_queue })
      | _ =>
        (.error .attrError,
          { m with levels := lv', clock := clk',
                   get_queue := appendLeftMax m.maxlen r m.get_queue })

/-- Source method `MultilevelCache.put`: delegate to the front level (`None.put` is an
attribute error when no level was ever added), append the `WriteResponse`
to the write-history queue, and return `None`. -/
def MultilevelCache.put (m : MultilevelCache) (k : Key) (v : Val) :
    (Except Err Unit) × MultilevelCache :=
  match m.levels with
  | [] => (.error .attrError, m)
  | _ :: _ =>
    match levelsPut m.levels k v m.clock with
    | (.error e, lv', clk') => (.error e, { m with levels := lv', clock := clk' })
    | (.ok r, lv', clk') =>
      (.ok (),
        { m with levels := lv', clock := clk',
                 put_queue := appendLeftMax m.maxlen r m.put_queue })

/-- Walk the recency list forward from a reference, visiting at most
`fuel` nodes; `none` when a dangling index is hit or the walk fails to
reach the end within the fuel (a cycle). -/
def llChainAux (ll : LL) : Nat → Option Nat → List Nat → Option (List Nat)
  | _, none, acc => some acc.reverse
  | 0, some _, _ => none
  | fuel + 1, some i, acc =>
    match ll.node i with
    | none => none
    | some nd => llChainAux ll fuel nd.next (i :: acc)

/-- The forward `next`-walk from `head`; enough fuel to visit every arena
slot once, so a walk that runs out of fuel has repeated a node (a cycle). -/
def LL.chain (ll : LL) : Option (List Nat) :=
  llChainAux ll (ll.nodes.length + 1) ll.head []

/-- Each consecutive pair of the forward walk is linked backwards by
`prev`, so head and tail are reachable from each other. -/
def pairsLinked (ll : LL) : List Nat → Bool
  | [] => true
  | [_] => true
  | a :: b :: rest =>
    (match ll.node b with
     | some nd => nd.prev == some a
     | none => false) && pairsLinked ll (b :: rest)

/-- No arena index is visited twice. -/
def nodupB : List Nat → Bool
  | [] => true
  | a :: rest => !(rest.contains a) && nodupB rest

/-- The recency-list structural invariant of the spec, decided on the
policy state: the `next`-walk from `head` terminates (no cycles, no
dangling references), it starts at `head` and ends at `tail`, `head` has
no predecessor, `tail` has no successor, `prev` links invert the walk
(head and tail reachable from each other), and every record tracked by
the policy appears in the walk exactly once (and nothing else does). -/
def LRUKeyAccessPolicy.wellFormed (pol : LRUKeyAccessPolicy) : Bool :=
  match pol.ll.chain with
  | none => false
  | some path =>
    match pol.ll.head, pol.ll.tail with
    | none, none => path.isEmpty && pol.hashmap.isEmpty
    | some h, some t =>
      (path.head? == some h) &&
      (path.getLast? == some t) &&
      (match pol.ll.node h with
       | some nd => nd.prev == none
       | none => false) &&
      (match pol.ll.node t with
       | some nd => nd.next == none
       | none => false) &&
      pairsLinked pol.ll path &&
      nodupB path &&
      pol.hashmap.all (fun p => path.contains p.2) &&
      path.all (fun i => pol.hashmap.any (fun p => p.2 == i))
    | _, _ => false

/-- A fresh `LRUKeyAccessPolicy()`. -/
def lruPolicyInit : LRUKeyAccessPolicy :=
  { hashmap := [], ll := { nodes := [], head := none, tail := none } }

/-- Run a sequence of `key_accessed` calls, stopping at the first error. -/
def runAccessed (pol : LRUKeyAccessPolicy) : List Key → (Except Err Unit) × LRUKeyAccessPolicy
  | [] => (.ok (), pol)
  | k :: rest =>
    match pol.keyAccessed k with
    | (.ok _, pol') => runAccessed pol' rest
    | (.error e, pol') => (.error e, pol')

/-- A fresh `Cache(HashMapBasedStorage(n), LRUKeyAccessPolicy())`. -/
def cacheOfCap (n : Nat) : Cache :=
  { storage := { capacity := some n, db := [] }, key_access_policy := lruPolicyInit }

/-- Run a sequence of `Cache.put` calls, stopping at the first error. -/
def runPuts (c : Cache) : List (Key × Val) → (Except Err Unit) × Cache
  | [] => (.ok (), c)
  | (k, v) :: rest =>
    match c.put k v with
    | (.ok _, c') => runPuts c' rest
    | (.error e, c') => (.error e, c')

/-- A fresh `MultilevelCache()` holding the given chain (default
`last_num_stat = 5`). -/
def mlOf (lvls : List CacheLevel) : MultilevelCache :=
  { levels := lvls, get_queue := [], put_queue := [], maxlen := 5, clock := 0 }

/-- The C1 scenario's populated back level: a capacity-5 cache holding
`x ↦ 42`, built by one `Cache.put`. -/
def c1BackCache : Cache :=
  ((cacheOfCap 5).put "x" (.int 42)).2

/-- The C1 scenario: empty front level `L1`, back level `L2` holding `x`. -/
def c1ml : MultilevelCache :=
  mlOf [{ name := "L1", cache_provider := cacheOfCap 5 },
        { name := "L2", cache_provider := c1BackCache }]

/-- Lookup directly inside the front level's storage. -/
def frontLookup (m : MultilevelCache) (k : Key) : Option Val :=
  match m.levels with
  | [] => none
  | l :: _ => dictGet l.cache_provider.storage.db k

/-- The C2 scenario: a capacity-3 LRU cache receiving
`put a=1, put b=2, put a=3, put c=4, put d=5`. -/
def c2ops : List (Key × Val) :=
  [("a", .int 1), ("b", .int 2), ("a", .int 3), ("c", .int 4), ("d", .int 5)]

/-- The cache state after the C2 sequence. -/
def c2cacheAfter : Cache :=
  (runPuts (cacheOfCap 3) c2ops).2

/-- The C5 scenario: a capacity-2 cache receiving
`put a=1, put b=2, put b=3` (only two distinct keys). -/
def c5cacheAfter : Cache :=
  (runPuts (cacheOfCap 2) [("a", .int 1), ("b", .int 2), ("b", .int 3)]).2

/-- The C4 scenario: a capacity-1 storage already holding `x`. -/
def c4storage : HashMapBasedStorage :=
  ((({ capacity := some 1, db := [] } : HashMapBasedStorage).put "x" (.int 1))).2

/-- A two-level chain with empty capacity-5 caches (C6 witness input). -/
def c6ml : MultilevelCache :=
  mlOf [{ name := "L1", cache_provider := cacheOfCap 5 },
        { name := "L2", cache_provider := cacheOfCap 5 }]

/-- The chain after `MultilevelCache.put("y", 7)`. -/
def c6mlAfter : MultilevelCache :=
  (c6ml.put "y" (.int 7)).2

/-- The front level of the written chain. -/
def c6lvl1 : CacheLevel :=
  c6mlAfter.levels.getD 0 { name := "", cache_provider := cacheOfCap 0 }

/-- The back level of the written chain. -/
def c6lvl2 : CacheLevel :=
  c6mlAfter.levels.getD 1 { name := "", cache_provider := cacheOfCap 0 }

/-- A two-level chain with empty caches; no level holds any key (C7
witness input). -/
def c7ml : MultilevelCache :=
  mlOf [{ name := "L1", cache_provider := cacheOfCap 5 },
        { name := "L2", cache_provider := cacheOfCap 5 }]

/-- The policy after accessing `a` then `b` (C8 witness input). -/
def c8polAB : LRUKeyAccessPolicy :=
  (runAccessed lruPolicyInit ["a", "b"]).2

/-- That policy after one `key_to_remove` (which returns `"a"`). -/
def c8polAfter : LRUKeyAccessPolicy :=
  (c8polAB.keyToRemove).2

/-- A one-level chain with an empty cache (C10 witness input). -/
def c10ml : MultilevelCache :=
  mlOf [{ name := "L1", cache_provider := cacheOfCap 5 }]

/-- That chain after the failing `MultilevelCache.get("x")`. -/
def c10mlAfter : MultilevelCache :=
  (c10ml.get "x").2

/-! Helper lemmas -/

theorem dictGet_dictPut_self {α : Type} (k : Key) (v : α) :
    ∀ (db : List (Key × α)), dictGet (dictPut db k v) k = some v := by
  intro db
  induction db with
  | nil => simp [dictPut, dictGet]
  | cons p rest ih =>
    obtain ⟨k', w⟩ := p
    by_cases hk : k' = k
    · simp [dictPut, dictGet, hk]
    · simpa [dictPut, dictGet, hk] using ih

theorem dictGet_dictRemove_self {α : Type} (k : Key) :
    ∀ (db : List (Key × α)), dictGet (dictRemove db k) k = none := by
  intro db
  induction db with
  | nil => rfl
  | cons p rest ih =>
    obtain ⟨k', w⟩ := p
    by_cases hk : k' = k
    · simpa [dictRemove, hk] using ih
    · simpa [dictRemove, dictGet, hk] using ih

theorem storage_put_ok_db (s : HashMapBasedStorage) (k : Key) (v : Val) (u : Unit)
    (s' : HashMapBasedStorage) (h : s.put k v = (.ok u, s')) :
    s'.db = dictPut s.db k v := by
  unfold HashMapBasedStorage.put at h
  split at h
  · simp at h
  · simp only [Prod.mk.injEq] at h
    rw [← h.2]

theorem cache_get_of_lookup (c : Cache) (k : Key) (v : Val)
    (h : dictGet c.storage.db k = some v) : c.get k = (.ok v, c) := by
  simp [Cache.get, HashMapBasedStorage.get, h]

theorem cache_get_of_lookup_none (c : Cache) (k : Key)
    (h : dictGet c.storage.db k = none) : c.get k = (.error .keyError, c) := by
  simp [Cache.get, HashMapBasedStorage.get, h]

theorem putAux_ok_lookup (fuel : Nat) :
    ∀ (c : Cache) (k : Key) (v : Val) (u : Unit) (c' : Cache),
      Cache.putAux fuel c k v = (.ok u, c') → dictGet c'.storage.db k = some v := by
  induction fuel with
  | zero =>
    intro c k v u c' h
    simp [Cache.putAux] at h
  | succ n ih =>
    intro c k v u c' h
    simp only [Cache.putAux] at h
    split at h
    · -- storage.put succeeded
      rename_i val st' hput
      split at h
      · simp only [Prod.mk.injEq] at h
        have hdb : c'.storage.db = dictPut c.storage.db k v := by
          rw [← h.2]
          exact storage_put_ok_db c.storage k v val st' hput
        rw [hdb]
        exact dictGet_dictPut_self _ _ _
      · simp at h
    · -- storage full: evict and retry
      rename_i st' hput
      split at h
      · simp at h
      · rename_i victim pol' hrem
        split at h
        · simp at h
        · rename_i u2 st2 hrm
          split at h
          · simp at h
          · rename_i u3 c4 hrec
            split at h
            · simp only [Prod.mk.injEq] at h
              have hdb : dictGet c'.storage.db k = some v := by
                rw [← h.2]
                exact ih _ k v u3 c4 hrec
              exact hdb
            · simp at h
    · simp at h

theorem cache_put_ok_lookup (c : Cache) (k : Key) (v : Val) (u : Unit) (c' : Cache)
    (h : c.put k v = (.ok u, c')) : dictGet c'.storage.db k = some v :=
  putAux_ok_lookup 2 c k v u c' h

theorem levelsPut_ok_lookup :
    ∀ (lvls : List CacheLevel) (k : Key) (v : Val) (clk : Nat) (r : Val)
      (lvls' : List CacheLevel) (clk' : Nat),
      levelsPut lvls k v clk = (.ok r, lvls', clk') →
      ∀ l ∈ lvls', dictGet l.cache_provider.storage.db k = some v := by
  intro lvls
  induction lvls with
  | nil =>
    intro k v clk r lvls' clk' h
    simp [levelsPut] at h
  | cons lvl rest ih =>
    intro k v clk r lvls' clk' h
    simp only [levelsPut] at h
    split at h
    · simp at h
    · rename_i u c' hput
      split at h
      · -- terminal level
        simp only [Prod.mk.injEq] at h
        intro l hl
        rw [← h.2.1] at hl
        simp only [List.mem_singleton] at hl
        subst hl
        exact cache_put_ok_lookup lvl.cache_provider k v u c' hput
      · -- intermediate level
        split at h
        · simp at h
        · rename_i r2 rest' clk2 hrec
          simp only [Prod.mk.injEq] at h
          intro l hl
          rw [← h.2.1] at hl
          rcases List.mem_cons.mp hl with hl | hl
          · subst hl
            exact cache_put_ok_lookup lvl.cache_provider k v u c' hput
          · exact ih k v _ r2 rest' clk2 hrec l hl

theorem levelsGet_all_miss :
    ∀ (lvls : List CacheLevel) (k : Key) (clk : Nat),
      lvls ≠ [] →
      (∀ l ∈ lvls, dictGet l.cache_provider.storage.db k = none) →
      (levelsGet lvls k clk).1 = .error .keyError := by
  intro lvls
  induction lvls with
  | nil => intro k clk hne _; exact absurd rfl hne
  | cons lvl rest ih =>
    intro k clk _ hmiss
    have hhd : lvl.cache_provider.get k = (.error .keyError, lvl.cache_provider) :=
      cache_get_of_lookup_none lvl.cache_provider k
        (hmiss lvl (List.mem_cons_self lvl rest))
    simp only [levelsGet, hhd]
    cases rest with
    | nil => rfl
    | cons l2 rest2 =>
      have htl : (levelsGet (l2 :: rest2) k (clk + 1)).1 = .error .keyError :=
        ih k (clk + 1) (by simp) (fun l hl => hmiss l (List.mem_cons_of_mem lvl hl))
      rcases hrec : levelsGet (l2 :: rest2) k (clk + 1) with ⟨r, rest', clk2⟩
      rw [hrec] at htl
      simp only at htl
      subst htl
      rfl

theorem levelsGet_ok_resp :
    ∀ (lvls : List CacheLevel) (k : Key) (clk : Nat) (r : Val)
      (lvls' : List CacheLevel) (clk' : Nat),
      levelsGet lvls k clk = (.ok r, lvls', clk') →
      ∃ v t, r = Val.resp .read v t := by
  intro lvls
  induction lvls with
  | nil =>
    intro k clk r lvls' clk' h
    simp [levelsGet] at h
  | cons lvl rest ih =>
    intro k clk r lvls' clk' h
    simp only [levelsGet] at h
    split at h
    · rename_i v c' hget
      simp only [Prod.mk.injEq, Except.ok.injEq] at h
      exact ⟨v, _, h.1.symm⟩
    · rename_i c' hget
      split at h
      · simp at h
      · split at h
        · simp at h
        · rename_i r2 rest' clk2 hrec
          split at h
          · simp at h
          · rename_i u c2 hput
            simp only [Prod.mk.injEq, Except.ok.injEq] at h
            exact ⟨r2, _, h.1.symm⟩
    · simp at h

/-! Claim theorems -/

/-- C1 (code behaviour at the claim's failing input): on a chain whose
empty front level misses `x` and whose back level stores the raw value
`42` for `x`, `MultilevelCache.get("x")` returns the `ReadResponse`
wrapper object produced by the back level — not the raw `42` — and the
front level's cache afterwards maps `x` to that same wrapper object
rather than to the raw value, because `CacheLevel.get` backfills with
`self.next.get(key)`'s return value instead of its `.value`. -/
theorem readThrough_returns_wrapper_eval :
    (c1ml.get "x").1 = .ok (.resp .read (.int 42) 1) ∧
    frontLookup (c1ml.get "x").2 "x" = some (.resp .read (.int 42) 1) ∧
    (Val.resp .read (.int 42) 1) ≠ .int 42 := by
  exact ⟨by decide, by decide, by decide⟩

/-- C2 (code behaviour at the claim's failing input): a capacity-3 LRU
cache receiving `put a=1, b=2, a=3, c=4, d=5` evicts `a` on the overflow
although `a` was re-accessed after `b` and `b` is still present — the
least-recently-used key `b` survives while a more recently used key is
evicted, violating the LRU ordering invariant.  The root cause is the
self-link `make_node_head` writes into a singleton list, which later
makes the promoted node both head and tail. -/
theorem lru_eviction_order_violated_eval :
    (runPuts (cacheOfCap 3) c2ops).1 = .ok () ∧
    dictGet c2cacheAfter.storage.db "a" = none ∧
    dictGet c2cacheAfter.storage.db "b" = some (.int 2) := by
  exact ⟨by decide, by decide, by decide⟩

/-- C3 (code behaviour at the claim's failing input): the structural
invariant of the recency list holds for the fresh policy but is already
broken by the very first successful `key_accessed`: the inserted sole
node is self-linked (`prev = next = itself`), so the list has a cycle,
the head has a predecessor and the tail has a successor. -/
theorem recency_list_invariant_broken_eval :
    lruPolicyInit.wellFormed = true ∧
    (lruPolicyInit.keyAccessed "a").1 = .ok () ∧
    ((lruPolicyInit.keyAccessed "a").2).wellFormed = false ∧
    ((lruPolicyInit.keyAccessed "a").2).ll.node 0 =
      some { val := "a", prev := some 0, next := some 0 } := by
  exact ⟨by decide, by decide, by decide, by decide⟩

/-- C4 (code behaviour at the claim's failing input): a capacity-1
storage already holding `x` rejects the overwrite `put("x", 2)` with
`StorageFull` and leaves the storage unchanged — `HashMapBasedStorage.put`
checks only `len(db) == capacity`, never whether the key is already
present. -/
theorem storage_put_overwrite_at_capacity_fails_eval :
    (dictGet c4storage.db "x").isSome = true ∧
    (c4storage.put "x" (.int 2)).1 = .error .storageFull ∧
    (c4storage.put "x" (.int 2)).2 = c4storage := by
  exact ⟨by decide, by decide, by decide⟩

/-- C5 (code behaviour at the claim's failing input): a capacity-2 cache
receiving `put a=1, put b=2, put b=3` — only two distinct keys, within
capacity — loses `a`: the overwrite of `b` at full size raises
`StorageFull`, the evict-and-retry path removes the LRU victim `a`, and
`get("a")` afterwards fails with the not-found error. -/
theorem cache_put_below_capacity_loses_key_eval :
    (runPuts (cacheOfCap 2) [("a", .int 1), ("b", .int 2), ("b", .int 3)]).1 = .ok () ∧
    (c5cacheAfter.get "a").1 = .error .keyError ∧
    dictGet c5cacheAfter.storage.db "b" = some (.int 3) := by
  exact ⟨by decide, by decide, by decide⟩

/-- C6: whenever `MultilevelCache.put(y, v)` returns successfully, every
level of the resulting chain holds `y ↦ v` in its own cache: querying each
level's `Cache.get` independently returns exactly `v`, because each
`CacheLevel.put` writes the same value to its local cache and then writes
through to the next level before returning. -/
theorem mlPut_write_through_all_levels (m : MultilevelCache) (k : Key) (v : Val)
    (u : Unit) (m' : MultilevelCache) (h : m.put k v = (.ok u, m')) :
    ∀ l ∈ m'.levels, l.cache_provider.get k = (.ok v, l.cache_provider) := by
  unfold MultilevelCache.put at h
  split at h
  · simp at h
  · split at h
    · simp at h
    · rename_i r lv' clk' hlp
      simp only [Prod.mk.injEq] at h
      intro l hl
      rw [← h.2] at hl
      have hmem : l ∈ lv' := hl
      have := levelsPut_ok_lookup m.levels k v m.clock r lv' clk' hlp l hmem
      exact cache_get_of_lookup l.cache_provider k v this

/-- C6 witness: after `put("y", 7)` on a fresh two-level chain, both
levels' caches independently return `7` for `y`. -/
theorem mlPut_write_through_all_levels_witness :
    c6lvl1.cache_provider.get "y" = (.ok (.int 7), c6lvl1.cache_provider) ∧
    c6lvl2.cache_provider.get "y" = (.ok (.int 7), c6lvl2.cache_provider) :=
  ⟨mlPut_write_through_all_levels c6ml "y" (.int 7) () c6mlAfter (by decide) c6lvl1 (by decide),
   mlPut_write_through_all_levels c6ml "y" (.int 7) () c6mlAfter (by decide) c6lvl2 (by decide)⟩

/-- C7: on a non-empty chain in which no level's storage holds the
requested key, `MultilevelCache.get` fails with exactly the not-found
error (`KeyError`): the tail level's miss propagates unmodified through
every intermediate level and through `MultilevelCache`, and no other
error kind is produced. -/
theorem mlGet_terminal_miss (m : MultilevelCache) (k : Key)
    (hne : m.levels ≠ [])
    (hmiss : ∀ l ∈ m.levels, dictGet l.cache_provider.storage.db k = none) :
    (m.get k).1 = .error .keyError := by
  unfold MultilevelCache.get
  split
  · rename_i hnil
    exact absurd hnil hne
  · rename_i l rest hcons
    have hall := levelsGet_all_miss m.levels k m.clock hne hmiss
    rcases hrec : levelsGet m.levels k m.clock with ⟨r, lv', clk'⟩
    rw [hrec] at hall
    simp only at hall
    subst hall
    rfl

/-- C7 witness: `get("nope")` on a fresh two-level chain fails with the
not-found error. -/
theorem mlGet_terminal_miss_witness :
    (c7ml.get "nope").1 = .error .keyError :=
  mlGet_terminal_miss c7ml "nope" (by decide) (by decide)

/-- C8 counterexample: the claim fails on the code at concrete inputs.
After the access sequence `a, b, a` the policy still tracks `b` (accessed
strictly earlier than `a`'s last access), yet `key_to_remove` removes and
returns `a` — not the least-recently-used key.  And on a policy tracking
no keys, `key_to_remove` fails with the `None`-dereference attribute
error (`tail.val` on `None`) — the code defines no `PolicyEmpty` error
kind at all. -/
theorem keyToRemove_counterexample :
    ((runAccessed lruPolicyInit ["a", "b", "a"]).2.keyToRemove).1 = .ok "a" ∧
    dictGet (runAccessed lruPolicyInit ["a", "b", "a"]).2.hashmap "b" = some 1 ∧
    (lruPolicyInit.keyToRemove).1 = .error .attrError := by
  exact ⟨by decide, by decide, by decide⟩

/-- C8 amended: when the policy tracks no keys, `key_to_remove()` fails
with a `None`-dereference attribute error (no `PolicyEmpty` error exists
in the code); and whenever `key_to_remove()` returns a key, that key has
been removed from the policy's own tracking index — Storage is never
touched, but the returned key is the recency list's tail, which is not in
general the least-recently-used key. -/
theorem keyToRemove_amended :
    (lruPolicyInit.keyToRemove).1 = .error .attrError ∧
    ∀ (pol : LRUKeyAccessPolicy) (k : Key) (pol' : LRUKeyAccessPolicy),
      pol.keyToRemove = (.ok k, pol') → dictGet pol'.hashmap k = none := by
  refine ⟨by decide, ?_⟩
  intro pol k pol' h
  unfold LRUKeyAccessPolicy.keyToRemove at h
  split at h
  · simp at h
  · simp at h
  · rename_i t ll' hll
    split at h
    · simp at h
    · rename_i nd hnd
      split at h
      · simp at h
      · rename_i w hw
        simp only [Prod.mk.injEq, Except.ok.injEq] at h
        rw [← h.2, ← h.1]
        exact dictGet_dictRemove_self nd.val pol.hashmap

/-- C8 witness for the amended claim: after accessing `a` then `b`,
`key_to_remove` returns `a`, and `a` is indeed gone from the policy's
tracking index. -/
theorem keyToRemove_amended_witness :
    dictGet c8polAfter.hashmap "a" = none :=
  keyToRemove_amended.2 c8polAB "a" c8polAfter (by decide)

/-- C9: on a `MultilevelCache` to which no level was ever added (the
front level is the Python `None`), both `get` and `put` fail by
dereferencing the missing front level — the attribute error — which is
neither the not-found error nor the storage-full error. -/
theorem mlGet_no_front_level_attrError (gq pq : List Val) (n clk : Nat) (k : Key) (v : Val) :
    ((({ levels := [], get_queue := gq, put_queue := pq, maxlen := n,
         clock := clk } : MultilevelCache).get k).1 = .error .attrError) ∧
    ((({ levels := [], get_queue := gq, put_queue := pq, maxlen := n,
         clock := clk } : MultilevelCache).put k v).1 = .error .attrError) ∧
    Err.attrError ≠ Err.keyError ∧ Err.attrError ≠ Err.storageFull := by
  refine ⟨rfl, rfl, by decide, by decide⟩

/-- C10: whenever `MultilevelCache.get` fails (in particular on a
terminal not-found miss of the front level), the error is propagated and
both history queues are left exactly as they were: no `Response` record
is appended for a failed read, so the queues only ever receive records of
operations that returned successfully. -/
theorem mlGet_error_leaves_queues_unchanged (m : MultilevelCache) (k : Key)
    (e : Err) (m' : MultilevelCache) (h : m.get k = (.error e, m')) :
    m'.get_queue = m.get_queue ∧ m'.put_queue = m.put_queue := by
  unfold MultilevelCache.get at h
  split at h
  · simp only [Prod.mk.injEq] at h
    rw [← h.2]
    exact ⟨rfl, rfl⟩
  · split at h
    · simp only [Prod.mk.injEq] at h
      rw [← h.2]
      exact ⟨rfl, rfl⟩
    · rename_i r lv' clk' hlg
      split at h
      · simp at h
      · rename_i hnotresp
        obtain ⟨v2, t2, hr⟩ :=
          levelsGet_ok_resp m.levels k m.clock r lv' clk' hlg
        exact absurd hr (by
          intro hcontra
          exact hnotresp RespKind.read v2 t2 hcontra)

/-- C10 witness: a miss on a one-level chain fails and leaves both
history queues empty as before. -/
theorem mlGet_error_leaves_queues_unchanged_witness :
    c10mlAfter.get_queue = c10ml.get_queue ∧ c10mlAfter.put_queue = c10ml.put_queue :=
  mlGet_error_leaves_queues_unchanged c10ml "x" .keyError c10mlAfter (by decide)

end MLCache
